import Mathlib

/-!
Verification of the incremental indexing/scraping state tracker of the
newspaper-scraper repository.  The Python modules
`newspaper_scraper/scraper.py`, `newspaper_scraper/database.py` and
`newspaper_scraper/utils/utils.py` are shallowly embedded below: the
in-memory pandas tables become lists of records, SQLite tables become
lists held in an explicit database state, and the per-publisher site
adapters (external collaborators) become function parameters.
-/

namespace NewspaperScraper

/-- A Python `datetime`: wall-clock value in minutes since an epoch plus an
optional UTC offset in minutes (`tzinfo`); `tzOffset = none` is a naive
datetime. -/
structure PyDatetime where
  naive : Int
  tzOffset : Option Int
deriving DecidableEq

/-- Python `aware.astimezone(dt.timezone.utc)`: shift the wall clock by the
offset.  The `getD 0` branch is unreachable where this is used, because the
call site first asserts that the timestamp is timezone-aware. -/
def astimezone_utc (t : PyDatetime) : PyDatetime :=
  { naive := t.naive - t.tzOffset.getD 0, tzOffset := some 0 }

/-- Minutes per day; `dt.datetime.date()` truncates a timestamp to its
calendar day. -/
def date_of_minutes (t : Int) : Int :=
  Int.fdiv t 1440

/-- A cell of the nullable `Public` column.  On disk it is a nullable SQL
INTEGER; in memory the loader's lambdas turn `1` into Python `True` and `0`
into `False`, so a cell is null, a Python bool, or a leftover integer. -/
inductive PubCell
  | null
  | pbool (b : Bool)
  | pint (n : Int)
deriving DecidableEq

/-- One row of the in-memory `df_indexed` table (`tblArticlesIndexed`). -/
structure DbIndexedRow where
  url : String
  dateIndexed : Int
  newspaperID : String
  pubDateIndexPage : Option Int
  edition : Option String
  public : PubCell
  scraped : Bool
  processed : Bool
deriving DecidableEq

/-- One row of the `tblArticlesScraped` table: the URL key, the open-ended
set of extracted fields, and the `DateScrapedHTML` stamp. -/
structure ScrapedRow where
  url : String
  fields : List (String × String)
  dateScrapedHTML : Int
deriving DecidableEq

/-- One row of the `tblArticlesProcessed` table. -/
structure ProcessedRow where
  url : String
  fields : List (String × String)
  dateProcessed : Int
deriving DecidableEq

/-- The URL index of a table, `df.index`. -/
def tableUrls (t : List DbIndexedRow) : List String :=
  t.map (·.url)

/-- Python `url.split('?')[0]`: the part of the URL before the first
question mark, i.e. with the query string removed. -/
def strip_query (url : String) : String :=
  String.mk (url.data.takeWhile (fun c => c != '?'))

/-- The row built for one `(url, pub_date)` pair in
`index_articles_by_date_range`: the publication date is converted to UTC and
its timezone dropped, the URL loses its query string, `Public` starts null
and both flags start false. -/
def mk_date_row (nid : String) (now : Int) (p : String × PyDatetime) : DbIndexedRow :=
  { url := strip_query p.1
    dateIndexed := now
    newspaperID := nid
    pubDateIndexPage := some (astimezone_utc p.2).naive
    edition := none
    public := .null
    scraped := false
    processed := false }

/-- Loop body of `index_articles_by_date_range` for one day.  The asserts
check that every publication date is timezone-aware (the `isinstance`
assert is vacuous in the typed model); rows whose URL is already in the
table index (for any publisher) are dropped, the rest are concatenated. -/
def index_day (nid : String) (now : Int) (table : List DbIndexedRow)
    (dayResult : List (String × PyDatetime)) : Except String (List DbIndexedRow) :=
  if dayResult.all (fun p => p.2.tzOffset.isSome) then
    let rows := dayResult.map (mk_date_row nid now)
    .ok (table ++ rows.filter (fun r => decide (r.url ∉ tableUrls table)))
  else
    .error "Not all pub_dates contain timezone info."

/-- The per-day loop of `index_articles_by_date_range`.  A failing assert
raises before this day's rows are merged, aborting the loop with the table
as accumulated so far (the in-memory state the exception leaves behind). -/
def run_days (nid : String) (now : Int) (adapter : Int → List (String × PyDatetime)) :
    List Int → List DbIndexedRow → List DbIndexedRow × Option String
  | [], table => (table, none)
  | d :: ds, table =>
    match index_day nid now table (adapter d) with
    | .ok t' => run_days nid now adapter ds t'
    | .error e => (table, some e)

/-- The calendar dates already indexed for one publisher: the set
`{index_day.date() for index_day in already_indexed.PubDateIndexPage}`
(rows without a publication date, e.g. edition-mode rows, contribute
nothing). -/
def indexed_dates (nid : String) (table : List DbIndexedRow) : List Int :=
  (table.filter (fun r => r.newspaperID == nid)).filterMap
    (fun r => r.pubDateIndexPage.map date_of_minutes)

/-- `pd.date_range(date_from, date_to)`: consecutive days, inclusive. -/
def date_range_list (dateFrom dateTo : Int) : List Int :=
  (List.range (dateTo + 1 - dateFrom).toNat).map (fun i => dateFrom + i)

/-- The work-unit resolver in date mode: with `skip_existing` the days whose
date already appears among this publisher's indexed publication dates are
removed. -/
def resolve_date_range (nid : String) (table : List DbIndexedRow)
    (dateFrom dateTo : Int) (skipExisting : Bool) : List Int :=
  if skipExisting then
    (date_range_list dateFrom dateTo).filter (fun d => decide (d ∉ indexed_dates nid table))
  else
    date_range_list dateFrom dateTo

/-- `NewspaperManager.index_articles_by_date_range`, acting on the in-memory
`df_indexed` table.  The second component is the pending exception, `none`
when the run completed.  The per-day `save_data('df_indexed', 'replace')`
persists a copy and does not change the in-memory table. -/
def index_articles_by_date_range (nid : String) (now : Int)
    (adapter : Int → List (String × PyDatetime))
    (dateFrom dateTo : Int) (skipExisting : Bool)
    (table : List DbIndexedRow) : List DbIndexedRow × Option String :=
  run_days nid now adapter (resolve_date_range nid table dateFrom dateTo skipExisting) table

/-- The stripped URLs an adapter reports for one day, in order. -/
def day_result_urls (dayResult : List (String × PyDatetime)) : List String :=
  dayResult.map (fun p => strip_query p.1)

/-- The UTC instant of a timestamp, `none` for a naive one. -/
def utc_instant (t : PyDatetime) : Option Int :=
  t.tzOffset.map (fun off => t.naive - off)

/-- Python `range(a, b)`. -/
def pyRange (a b : Nat) : List Nat :=
  (List.range (b - a)).map (a + ·)

/-- The `f'{year}-{edition}'` label of an edition unit. -/
def edition_label (p : Nat × Nat) : String :=
  s!"{p.1}-{p.2}"

/-- The edition expansion loop of `index_articles_by_edition`: for each year
from `year_from` to `year_to`, the editions are `edition_from..edition_to`
when the years coincide, `edition_from..editions_per_year` for the first
year, `1..edition_to` for the last, and `1..editions_per_year` in between.
The code builds the `"YYYY-E"` label and the loop splits it back; pairs
carry the same information. -/
def edition_range (yf ef yt et epy : Nat) : List (Nat × Nat) :=
  (pyRange yf (yt + 1)).flatMap (fun year =>
    let editions :=
      if year == yf && year == yt then pyRange ef (et + 1)
      else if year == yf then pyRange ef (epy + 1)
      else if year == yt then pyRange 1 (et + 1)
      else pyRange 1 (epy + 1)
    editions.map (fun e => (year, e)))

/-- The edition labels already indexed for one publisher
(`already_indexed.Edition.unique()`). -/
def indexed_editions (nid : String) (table : List DbIndexedRow) : List String :=
  ((table.filter (fun r => r.newspaperID == nid)).filterMap (·.edition)).dedup

/-- The work-unit resolver in edition mode. -/
def resolve_edition_units (nid : String) (table : List DbIndexedRow)
    (yf ef yt et epy : Nat) (skipExisting : Bool) : List (Nat × Nat) :=
  if skipExisting then
    (edition_range yf ef yt et epy).filter
      (fun p => decide (edition_label p ∉ indexed_editions nid table))
  else
    edition_range yf ef yt et epy

/-- The spec's reading of edition-range resolution: the full ordered
sequence of (year, edition) units, starting at `edition_from` in the first
year, ending at `edition_to` in the last, and running `1..editions_per_year`
for each complete intermediate year. -/
def edition_range_spec (yf ef yt et epy : Nat) : List (Nat × Nat) :=
  (pyRange yf (yt + 1)).flatMap (fun year =>
    (pyRange (if year == yf then ef else 1) ((if year == yt then et else epy) + 1)).map
      (fun e => (year, e)))

/-- Loop body of `index_articles_by_edition` for one edition unit. -/
def index_edition_step (nid : String) (now : Int) (table : List DbIndexedRow)
    (year ed : Nat) (urls : List String) : List DbIndexedRow :=
  let rows := urls.map (fun u =>
    { url := strip_query u
      dateIndexed := now
      newspaperID := nid
      pubDateIndexPage := none
      edition := some (edition_label (year, ed))
      public := .null
      scraped := false
      processed := false : DbIndexedRow })
  table ++ rows.filter (fun r => decide (r.url ∉ tableUrls table))

/-- `NewspaperManager.index_articles_by_edition` acting on `df_indexed`. -/
def index_articles_by_edition (nid : String) (now : Int)
    (adapter : Nat → Nat → List String)
    (yf ef yt et epy : Nat) (skipExisting : Bool)
    (table : List DbIndexedRow) : List DbIndexedRow :=
  (resolve_edition_units nid table yf ef yt et epy skipExisting).foldl
    (fun t p => index_edition_step nid now t p.1 p.2 (adapter p.1 p.2)) table

/-- One row of `tblArticlesIndexed` as it sits on disk.  The stored
`Scraped`/`Processed` cells are whatever the last write left there; the
loader overwrites them. -/
structure DiskIndexedRow where
  url : String
  dateIndexed : Int
  newspaperID : String
  pubDateIndexPage : Option Int
  edition : Option String
  public : PubCell
  scraped : PubCell
  processed : PubCell
deriving DecidableEq

/-- Loader lambda `lambda x: True if x == '1' or x == 1 else x` on a cell
(Python `True == 1`). -/
def cell_handle_true : PubCell → PubCell
  | .pbool true => .pbool true
  | .pbool false => .pbool false
  | .pint n => if n == 1 then .pbool true else .pint n
  | .null => .null

/-- Loader lambda `lambda x: False if x == '0' or x == 0 else x` on a cell
(Python `False == 0`). -/
def cell_handle_false : PubCell → PubCell
  | .pbool false => .pbool false
  | .pbool true => .pbool true
  | .pint n => if n == 0 then .pbool false else .pint n
  | .null => .null

/-- The same lambdas applied to the freshly recomputed boolean
`Scraped`/`Processed` columns, where they act on Python bools. -/
def bool_handle_true (b : Bool) : Bool :=
  if b then true else b

/-- Companion of `bool_handle_true` for the `0`-to-`False` lambda. -/
def bool_handle_false (b : Bool) : Bool :=
  if b == false then false else b

/-- `Database._load_table('tblArticlesIndexed')`: read the rows, then
overwrite `Scraped` with membership of the URL in `tblArticlesScraped` and
`Processed` with membership in `tblArticlesProcessed`, then run the
boolean-handling lambdas (the source applies the true-lambda to `Scraped`
twice and never the false-lambda). -/
def load_indexed (disk : List DiskIndexedRow) (scrapedUrls processedUrls : List String) :
    List DbIndexedRow :=
  disk.map (fun r =>
    { url := r.url
      dateIndexed := r.dateIndexed
      newspaperID := r.newspaperID
      pubDateIndexPage := r.pubDateIndexPage
      edition := r.edition
      public := cell_handle_false (cell_handle_true r.public)
      scraped := bool_handle_true (bool_handle_true (decide (r.url ∈ scrapedUrls)))
      processed := bool_handle_false (bool_handle_true (decide (r.url ∈ processedUrls))) })

/-- Errors `Database.save_data` can raise. -/
inductive SaveErr
  | badMode (m : String)
  | badName (n : String)
  | assertIndexNotUnique
  | opError
deriving DecidableEq

/-- Observable outcome of one `save_data` call: whether a write reached the
durable store, and the exception that escaped, if any. -/
structure SaveOutcome where
  wrote : Bool
  error : Option SaveErr
deriving DecidableEq

/-- The `Database` object: the in-memory `df_indexed` table, the two pending
append buffers, the three durable SQLite tables, and the per-table
`_last_save` stamps. -/
structure DbState where
  dfIndexed : List DbIndexedRow
  dfScrapedNew : List ScrapedRow
  dfProcessedNew : List ProcessedRow
  tblIndexed : List DbIndexedRow
  tblScraped : List ScrapedRow
  tblProcessed : List ProcessedRow
  lastSaveIndexed : Int
  lastSaveScraped : Int
  lastSaveProcessed : Int
deriving DecidableEq

/-- The six table components of a database state (excludes the `_last_save`
bookkeeping stamps). -/
def dbTables (s : DbState) :=
  (s.dfIndexed, s.dfScrapedNew, s.dfProcessedNew, s.tblIndexed, s.tblScraped, s.tblProcessed)

/-- `self._last_save[data_name]`; `none` is the `KeyError` an unknown name
raises. -/
def last_save_of (s : DbState) (dataName : String) : Option Int :=
  if dataName == "df_indexed" then some s.lastSaveIndexed
  else if dataName == "df_scraped" then some s.lastSaveScraped
  else if dataName == "df_processed" then some s.lastSaveProcessed
  else none

/-- Update `self._last_save[data_name]`. -/
def set_last_save (s : DbState) (dataName : String) (now : Int) : DbState :=
  if dataName == "df_indexed" then { s with lastSaveIndexed := now }
  else if dataName == "df_scraped" then { s with lastSaveScraped := now }
  else { s with lastSaveProcessed := now }

/-- `DataFrame.to_sql(..., if_exists=mode)`: append adds the rows at the
end, replace rewrites the table. -/
def to_sql {α : Type} (tbl df : List α) (mode : String) : List α :=
  if mode == "append" then tbl ++ df else df

/-- The try/except around `to_sql` in `save_data`: the SQL engine is
external, so whether each attempt raises `sqlite3.OperationalError` is a
parameter.  On a first failure the missing columns are added (`ALTER
TABLE`, absorbed in the abstract table here) and the write is retried
exactly once; a second failure propagates with no rows written. -/
def attempt_write {α : Type} (tbl df : List α) (mode : String)
    (firstOk secondOk : Bool) : List α × Bool × Option SaveErr :=
  if firstOk then (to_sql tbl df mode, true, none)
  else if secondOk then (to_sql tbl df mode, true, none)
  else (tbl, false, some .opError)

/-- `Database.save_data(data_name, mode, force)` at wall-clock `now` with
the configured `settings.save_interval`.  In append mode the pending buffer
is copied into `_df` and immediately reset to its empty head; an empty
`_df` returns before any write.  For `df_scraped`/`df_processed` in replace
mode `_df` is the lazily loaded full durable table. -/
def save_data (s : DbState) (dataName mode : String) (force : Bool)
    (now saveInterval : Int) (firstOk secondOk : Bool) : DbState × SaveOutcome :=
  if !(mode == "append" || mode == "replace") then
    (s, ⟨false, some (.badMode mode)⟩)
  else
    match last_save_of s dataName with
    | none => (s, ⟨false, some (.badName dataName)⟩)
    | some last =>
      if !force && decide (last + saveInterval > now) then
        (s, ⟨false, none⟩)
      else
        let s1 := set_last_save s dataName now
        if dataName == "df_indexed" then
          if (tableUrls s1.dfIndexed).Nodup then
            if s1.dfIndexed.isEmpty then (s1, ⟨false, none⟩)
            else
              let w := attempt_write s1.tblIndexed s1.dfIndexed mode firstOk secondOk
              ({ s1 with tblIndexed := w.1 }, ⟨w.2.1, w.2.2⟩)
          else
            (s1, ⟨false, some .assertIndexNotUnique⟩)
        else if dataName == "df_scraped" then
          let df := if mode == "append" then s1.dfScrapedNew else s1.tblScraped
          let s2 := if mode == "append" then { s1 with dfScrapedNew := [] } else s1
          if df.isEmpty then (s2, ⟨false, none⟩)
          else
            let w := attempt_write s2.tblScraped df mode firstOk secondOk
            ({ s2 with tblScraped := w.1 }, ⟨w.2.1, w.2.2⟩)
        else
          let df := if mode == "append" then s1.dfProcessedNew else s1.tblProcessed
          let s2 := if mode == "append" then { s1 with dfProcessedNew := [] } else s1
          if df.isEmpty then (s2, ⟨false, none⟩)
          else
            let w := attempt_write s2.tblProcessed df mode firstOk secondOk
            ({ s2 with tblProcessed := w.1 }, ⟨w.2.1, w.2.2⟩)

/-- Result of a site adapter's `_soup_get_html(url)`: either the fetched
page together with its public/premium classification, or the adapter's
`except AttributeError` path, which logs `'Error scraping {url}.'` and
returns `(None, False)` (same pattern in every bundled site adapter). -/
inductive FetchResult
  | ok (html : String) (isPublic : Bool)
  | fetchError
deriving DecidableEq

/-- `Public.isnull()`. -/
def is_null_public : PubCell → Bool
  | .null => true
  | _ => false

/-- Pandas `Public == 0` (Python `False == 0` and `0 == 0`). -/
def public_eq_zero : PubCell → Bool
  | .pbool false => true
  | .pint n => n == 0
  | _ => false

/-- `df_indexed.at[url, 'Scraped'] = True`. -/
def set_scraped (t : List DbIndexedRow) (url : String) : List DbIndexedRow :=
  t.map (fun r => if r.url == url then { r with scraped := true } else r)

/-- `df_indexed.at[url, 'Processed'] = True`. -/
def set_processed (t : List DbIndexedRow) (url : String) : List DbIndexedRow :=
  t.map (fun r => if r.url == url then { r with processed := true } else r)

/-- `df_indexed.at[url, 'Public'] = public`. -/
def set_public (t : List DbIndexedRow) (url : String) (b : Bool) : List DbIndexedRow :=
  t.map (fun r => if r.url == url then { r with public := .pbool b } else r)

/-- The `Public` cell of a URL's row, as pandas cell lookup on the URL
index (`.null` when the URL is absent). -/
def public_flag (t : List DbIndexedRow) (url : String) : PubCell :=
  match t.find? (fun r => r.url == url) with
  | some r => r.public
  | none => .null

/-- The `Scraped` cell of a URL's row (`false` when the URL is absent). -/
def scraped_flag (t : List DbIndexedRow) (url : String) : Bool :=
  match t.find? (fun r => r.url == url) with
  | some r => r.scraped
  | none => false

/-- The in-memory state a `NewspaperManager` drives: `df_indexed` and the
two pending append buffers.  The per-URL `save_data` calls flush copies to
the durable layer modelled by `DbState` and never touch `df_indexed`. -/
structure MgrState where
  dfIndexed : List DbIndexedRow
  dfScrapedNew : List ScrapedRow
  dfProcessedNew : List ProcessedRow
deriving DecidableEq

/-- `_parse_article` (goose3 is a black box `parse`) indexed by the URL,
followed by `df_scraped_new.loc[url, 'DateScrapedHTML'] = now`. -/
def parse_row (parse : String → String → List (String × String))
    (html url : String) (now : Int) : ScrapedRow :=
  { url := url, fields := parse html url, dateScrapedHTML := now }

/-- The candidate rows of `scrape_public_articles`: this publisher's rows
whose accessibility is still unknown. -/
def to_scrape_public (nid : String) (t : List DbIndexedRow) : List DbIndexedRow :=
  t.filter (fun r => r.newspaperID == nid && is_null_public r.public)

/-- Loop body of `scrape_public_articles` for one URL, also accumulating
the warnings the adapter logs.  A public page is parsed and appended to
`df_scraped_new` with `Scraped` set; otherwise nothing is scraped; in every
case the resolved `Public` value is recorded. -/
def scrape_public_step (fetch : String → FetchResult)
    (parse : String → String → List (String × String)) (now : Int)
    (acc : MgrState × List String) (url : String) : MgrState × List String :=
  match fetch url with
  | .ok html true =>
    ({ acc.1 with
        dfIndexed := set_public (set_scraped acc.1.dfIndexed url) url true
        dfScrapedNew := acc.1.dfScrapedNew ++ [parse_row parse html url now] },
      acc.2)
  | .ok _ false =>
    ({ acc.1 with dfIndexed := set_public acc.1.dfIndexed url false }, acc.2)
  | .fetchError =>
    ({ acc.1 with dfIndexed := set_public acc.1.dfIndexed url false },
      acc.2 ++ [s!"Error scraping {url}."])

/-- `NewspaperManager.scrape_public_articles`: iterate the snapshot of
candidates computed up front, returning the final state and the warnings
emitted. -/
def scrape_public_articles (nid : String) (fetch : String → FetchResult)
    (parse : String → String → List (String × String)) (now : Int)
    (s : MgrState) : MgrState × List String :=
  let toScrape := to_scrape_public nid s.dfIndexed
  if toScrape.isEmpty then (s, [])
  else (toScrape.map (·.url)).foldl (scrape_public_step fetch parse now) (s, [])

/-- The candidate rows of `scrape_premium_articles`: this publisher's rows
with `Public == 0` and `Scraped != True`. -/
def to_scrape_premium (nid : String) (t : List DbIndexedRow) : List DbIndexedRow :=
  t.filter (fun r => r.newspaperID == nid && public_eq_zero r.public && !r.scraped)

/-- `NewspaperManager.scrape_premium_articles`: no-op when nothing is
pending; otherwise the adapter login runs first and a failed login logs
`'Login failed. Skip scraping.'` and returns.  On success each candidate is
fetched through the authenticated session, parsed and appended. -/
def scrape_premium_articles (nid : String) (loginSuccessful : Bool)
    (seleniumGet : String → String)
    (parse : String → String → List (String × String)) (now : Int)
    (s : MgrState) : MgrState × List String :=
  let toScrape := to_scrape_premium nid s.dfIndexed
  if toScrape.isEmpty then (s, [])
  else if !loginSuccessful then (s, ["Login failed. Skip scraping."])
  else
    (toScrape.map (·.url)).foldl
      (fun acc url =>
        ({ acc.1 with
            dfIndexed := set_scraped acc.1.dfIndexed url
            dfScrapedNew := acc.1.dfScrapedNew ++ [parse_row parse (seleniumGet url) url now] },
          acc.2))
      (s, [])

/-- The stored body text of a scraped row, `row['Text']`. -/
def row_text (r : ScrapedRow) : String :=
  (r.fields.lookup "Text").getD ""

/-- The candidates of `nlp()`: scraped rows joined against `df_indexed` by
URL, kept when the row belongs to this publisher and `Processed != True`. -/
def to_process_list (nid : String) (dfScraped : List ScrapedRow)
    (dfIndexed : List DbIndexedRow) : List ScrapedRow :=
  dfScraped.filter (fun row =>
    match dfIndexed.find? (fun r => r.url == row.url) with
    | some r => r.newspaperID == nid && !r.processed
    | none => false)

/-- `NewspaperManager.nlp`: run the NLP black box `process` over each
candidate's text, append to `df_processed_new` and flip `Processed`. -/
def nlp_articles (nid : String) (dfScraped : List ScrapedRow)
    (process : String → String → List (String × String)) (now : Int)
    (s : MgrState) : MgrState :=
  let toProcess := to_process_list nid dfScraped s.dfIndexed
  if toProcess.isEmpty then s
  else
    toProcess.foldl
      (fun st row =>
        { st with
            dfProcessedNew := st.dfProcessedNew ++
              [{ url := row.url, fields := process (row_text row) row.url, dateProcessed := now }]
            dfIndexed := set_processed st.dfIndexed row.url })
      s

/-- One top-level driver invocation, with its external collaborators as
data: the operations the spec's flag-monotonicity property quantifies
over. -/
inductive MgrOp
  | opIndexDate (nid : String) (now : Int) (adapter : Int → List (String × PyDatetime))
      (dateFrom dateTo : Int) (skipExisting : Bool)
  | opIndexEdition (nid : String) (now : Int) (adapter : Nat → Nat → List String)
      (yf ef yt et epy : Nat) (skipExisting : Bool)
  | opScrapePublic (nid : String) (fetch : String → FetchResult)
      (parse : String → String → List (String × String)) (now : Int)
  | opScrapePremium (nid : String) (login : Bool) (seleniumGet : String → String)
      (parse : String → String → List (String × String)) (now : Int)
  | opNlp (nid : String) (dfScraped : List ScrapedRow)
      (process : String → String → List (String × String)) (now : Int)

/-- Effect of one driver invocation on the in-memory state.  An indexing
run that dies on an assert leaves the table as accumulated so far, which is
what the raised exception leaves in memory. -/
def apply_op (op : MgrOp) (s : MgrState) : MgrState :=
  match op with
  | .opIndexDate nid now adapter dateFrom dateTo skip =>
    { s with dfIndexed := (index_articles_by_date_range nid now adapter dateFrom dateTo skip s.dfIndexed).1 }
  | .opIndexEdition nid now adapter yf ef yt et epy skip =>
    { s with dfIndexed := index_articles_by_edition nid now adapter yf ef yt et epy skip s.dfIndexed }
  | .opScrapePublic nid fetch parse now => (scrape_public_articles nid fetch parse now s).1
  | .opScrapePremium nid login seleniumGet parse now =>
    (scrape_premium_articles nid login seleniumGet parse now s).1
  | .opNlp nid dfScraped process now => nlp_articles nid dfScraped process now s

/-- The trace of states a sequence of driver invocations passes through,
initial state included. -/
def op_trace (s : MgrState) : List MgrOp → List MgrState
  | [] => [s]
  | op :: ops => s :: op_trace (apply_op op s) ops

/-- A SIGINT disposition: the default handler or `SIG_IGN`. -/
inductive SigHandler
  | defaultH
  | ignoreH
deriving DecidableEq

/-- One step of a process execution for the signal model: installing a
handler (`signal.signal(SIGINT, ...)`), one unit of the wrapped function's
work, or the arrival of a SIGINT. -/
inductive SigAction
  | setHandler (h : SigHandler)
  | bodyStep
  | sigint
deriving DecidableEq

/-- Process state for the signal model.  POSIX/CPython semantics: a SIGINT
arriving while the disposition is `SIG_IGN` is discarded by the kernel — it
is not queued and a later `signal.signal` restoring the old handler does
not resurrect it; under the default handler it interrupts the process. -/
structure ProcState where
  handler : SigHandler
  running : Bool
  bodyStepsDone : Nat
  discardedSignals : Nat
  deliveredSignals : Nat
deriving DecidableEq

/-- Initial process state: default SIGINT disposition, nothing run yet. -/
def initProc : ProcState :=
  { handler := .defaultH, running := true, bodyStepsDone := 0
    discardedSignals := 0, deliveredSignals := 0 }

/-- Small-step semantics of the signal model. -/
def sig_step (s : ProcState) (a : SigAction) : ProcState :=
  if !s.running then s
  else
    match a with
    | .setHandler h => { s with handler := h }
    | .bodyStep => { s with bodyStepsDone := s.bodyStepsDone + 1 }
    | .sigint =>
      match s.handler with
      | .ignoreH => { s with discardedSignals := s.discardedSignals + 1 }
      | .defaultH => { s with running := false, deliveredSignals := s.deliveredSignals + 1 }

/-- Run a list of actions. -/
def sig_run (as : List SigAction) (s : ProcState) : ProcState :=
  as.foldl sig_step s

/-- The execution trace of a `delay_interrupt`-wrapped operation of `n`
body steps during which one SIGINT arrives after `k` steps: the wrapper
installs `SIG_IGN`, the body runs, the saved handler is restored
(`utils.delay_interrupt`). -/
def delay_interrupt_trace (n k : Nat) : List SigAction :=
  [.setHandler .ignoreH] ++ List.replicate k .bodyStep ++ [.sigint] ++
    List.replicate (n - k) .bodyStep ++ [.setHandler .defaultH]

/-- A concrete disk row whose persisted flag cells disagree with table
membership: used to witness flag recomputation on load. -/
def mkDiskWitnessRow : DiskIndexedRow :=
  { url := "u", dateIndexed := 0, newspaperID := "x", pubDateIndexPage := none,
    edition := none, public := .null, scraped := .pint 0, processed := .pint 1 }

/-- The row `mkDiskWitnessRow` loads to when `"u"` is in the Scraped table
and not in the Processed table. -/
def mkLoadedWitnessRow : DbIndexedRow :=
  { url := "u", dateIndexed := 0, newspaperID := "x", pubDateIndexPage := none,
    edition := none, public := .null, scraped := true, processed := false }

/-- A pending paywalled, unscraped row of publisher `"x"`. -/
def premiumWitnessRow : DbIndexedRow :=
  { url := "a", dateIndexed := 0, newspaperID := "x", pubDateIndexPage := none,
    edition := none, public := .pbool false, scraped := false, processed := false }

/-- A manager state holding exactly `premiumWitnessRow`. -/
def premiumWitnessState : MgrState :=
  { dfIndexed := [premiumWitnessRow], dfScrapedNew := [], dfProcessedNew := [] }

/-- A deterministic one-day adapter used to witness index idempotence. -/
def c1_adapter : Int → List (String × PyDatetime) :=
  fun d => if d = 0 then [("u?a", ⟨0, some 0⟩)] else []

/-- A candidate row of publisher `"x"` whose fetch will fail. -/
def c6_row_a : DbIndexedRow :=
  { url := "a", dateIndexed := 0, newspaperID := "x", pubDateIndexPage := none,
    edition := none, public := .null, scraped := false, processed := false }

/-- A candidate row of publisher `"x"` whose fetch will succeed. -/
def c6_row_b : DbIndexedRow :=
  { url := "b", dateIndexed := 0, newspaperID := "x", pubDateIndexPage := none,
    edition := none, public := .null, scraped := false, processed := false }

/-- A manager state with the two candidate rows above. -/
def c6_state : MgrState :=
  { dfIndexed := [c6_row_a, c6_row_b], dfScrapedNew := [], dfProcessedNew := [] }

/-- An adapter whose fetch of `"a"` hits the parse-failure path and whose
other fetches succeed publicly. -/
def c6_fetch : String → FetchResult :=
  fun u => if u == "a" then .fetchError else .ok "<html/>" true

/-! ## Helper lemmas -/

/-- `flatMap` respects pointwise equality of the functions on the list. -/
theorem flatMap_congr_on {α β : Type} (l : List α) (f g : α → List β)
    (h : ∀ a ∈ l, f a = g a) : l.flatMap f = l.flatMap g := by
  induction l with
  | nil => rfl
  | cons a l ih =>
    simp only [List.flatMap_cons, h a (List.mem_cons_self a l)]
    rw [ih (fun x hx => h x (List.mem_cons_of_mem a hx))]

/-- Running the wrapped body does not touch the handler or the signal
counters, and advances the step counter. -/
theorem sig_run_body (m : Nat) (s : ProcState) (hrun : s.running = true) :
    sig_run (List.replicate m .bodyStep) s
      = { s with bodyStepsDone := s.bodyStepsDone + m } := by
  induction m generalizing s with
  | zero => simp [sig_run]
  | succ m ih =>
    rw [List.replicate_succ]
    show sig_run (List.replicate m .bodyStep) (sig_step s .bodyStep)
      = { s with bodyStepsDone := s.bodyStepsDone + (m + 1) }
    rw [show sig_step s .bodyStep = { s with bodyStepsDone := s.bodyStepsDone + 1 } by
      simp [sig_step, hrun]]
    rw [ih { s with bodyStepsDone := s.bodyStepsDone + 1 } hrun]
    simp [Nat.add_assoc, Nat.add_comm 1 m]

/-- `sig_run` splits over concatenation. -/
theorem sig_run_append (a b : List SigAction) (s : ProcState) :
    sig_run (a ++ b) s = sig_run b (sig_run a s) := by
  simp [sig_run, List.foldl_append]

/-- Full evaluation of a `delay_interrupt` trace: the body finishes, the
SIGINT is counted as discarded, and the saved handler is restored. -/
theorem delay_interrupt_run_eq (n k : Nat) :
    sig_run (delay_interrupt_trace n k) initProc
      = { handler := .defaultH, running := true, bodyStepsDone := k + (n - k),
          discardedSignals := 1, deliveredSignals := 0 } := by
  unfold delay_interrupt_trace
  rw [sig_run_append, sig_run_append, sig_run_append, sig_run_append]
  rw [show sig_run [SigAction.setHandler .ignoreH] initProc
      = { handler := .ignoreH, running := true, bodyStepsDone := 0,
          discardedSignals := 0, deliveredSignals := 0 } from rfl]
  rw [sig_run_body k _ rfl]
  rw [show sig_run [SigAction.sigint]
        { handler := .ignoreH, running := true, bodyStepsDone := 0 + k,
          discardedSignals := 0, deliveredSignals := 0 }
      = { handler := .ignoreH, running := true, bodyStepsDone := 0 + k,
          discardedSignals := 1, deliveredSignals := 0 } from rfl]
  rw [sig_run_body (n - k) _ rfl]
  simp [sig_run, sig_step]

/-- A successful `index_day` returns the old table with this day's new
rows appended, and its timezone check passed. -/
theorem index_day_ok_shape (nid : String) (now : Int) (t : List DbIndexedRow)
    (res : List (String × PyDatetime)) (t1 : List DbIndexedRow)
    (h : index_day nid now t res = .ok t1) :
    t1 = t ++ (res.map (mk_date_row nid now)).filter (fun r => decide (r.url ∉ tableUrls t))
    ∧ res.all (fun p => p.2.tzOffset.isSome) = true := by
  rw [index_day] at h
  split at h
  · exact ⟨(Except.ok.inj h).symm, by assumption⟩
  · cases h

/-- `tableUrls` distributes over append. -/
theorem tableUrls_append (a b : List DbIndexedRow) :
    tableUrls (a ++ b) = tableUrls a ++ tableUrls b := by
  simp [tableUrls]

/-- `run_days` only ever appends rows to the table. -/
theorem run_days_append (nid : String) (now : Int)
    (adapter : Int → List (String × PyDatetime)) (ds : List Int) (t : List DbIndexedRow) :
    ∃ ext, (run_days nid now adapter ds t).1 = t ++ ext := by
  induction ds generalizing t with
  | nil => exact ⟨[], (List.append_nil t).symm⟩
  | cons d ds ih =>
    simp only [run_days]
    cases hi : index_day nid now t (adapter d) with
    | error e => exact ⟨[], (List.append_nil t).symm⟩
    | ok t1 =>
      obtain ⟨hshape, _⟩ := index_day_ok_shape _ _ _ _ _ hi
      obtain ⟨ext1, hx⟩ := ih t1
      refine ⟨((adapter d).map (mk_date_row nid now)).filter
        (fun r => decide (r.url ∉ tableUrls t)) ++ ext1, ?_⟩
      rw [hx, hshape, List.append_assoc]

/-- A URL already present in the table is not added again by a day's
merge: its multiplicity in the URL index is unchanged. -/
theorem index_day_count (nid : String) (now : Int) (t : List DbIndexedRow)
    (res : List (String × PyDatetime)) (t1 : List DbIndexedRow) (u : String)
    (hu : u ∈ tableUrls t) (h : index_day nid now t res = .ok t1) :
    (tableUrls t1).count u = (tableUrls t).count u := by
  obtain ⟨rfl, _⟩ := index_day_ok_shape _ _ _ _ _ h
  rw [tableUrls_append, List.count_append]
  have hzero : (tableUrls ((res.map (mk_date_row nid now)).filter
      (fun r => decide (r.url ∉ tableUrls t)))).count u = 0 := by
    rw [List.count_eq_zero]
    intro hmem
    obtain ⟨r, hr, hru⟩ := List.mem_map.1 hmem
    exact (of_decide_eq_true (List.mem_filter.1 hr).2) (by rwa [hru])
  omega

/-- Multiplicity of an existing URL is unchanged across a whole run. -/
theorem run_days_count (nid : String) (now : Int)
    (adapter : Int → List (String × PyDatetime)) (ds : List Int) :
    ∀ (t : List DbIndexedRow) (u : String), u ∈ tableUrls t →
      (tableUrls (run_days nid now adapter ds t).1).count u = (tableUrls t).count u := by
  induction ds with
  | nil => intro t u _; rfl
  | cons d ds ih =>
    intro t u hu
    simp only [run_days]
    cases hi : index_day nid now t (adapter d) with
    | error e => rfl
    | ok t1 =>
      have hc := index_day_count nid now t (adapter d) t1 u hu hi
      have hu1 : u ∈ tableUrls t1 := by
        obtain ⟨rfl, _⟩ := index_day_ok_shape _ _ _ _ _ hi
        rw [tableUrls_append]
        exact List.mem_append_left _ hu
      rw [ih t1 u hu1, hc]

/-- After a day is merged, every URL the adapter reported for it (query
string stripped) is in the table. -/
theorem index_day_urls_present (nid : String) (now : Int) (t : List DbIndexedRow)
    (res : List (String × PyDatetime)) (t1 : List DbIndexedRow)
    (h : index_day nid now t res = .ok t1) :
    ∀ p ∈ res, strip_query p.1 ∈ tableUrls t1 := by
  obtain ⟨rfl, _⟩ := index_day_ok_shape _ _ _ _ _ h
  intro p hp
  rw [tableUrls_append]
  by_cases hmem : strip_query p.1 ∈ tableUrls t
  · exact List.mem_append_left _ hmem
  · refine List.mem_append_right _ ?_
    refine List.mem_map.2 ⟨mk_date_row nid now p, ?_, rfl⟩
    exact List.mem_filter.2 ⟨List.mem_map_of_mem _ hp, decide_eq_true hmem⟩

/-- A completed run passed every day's timezone check and left every URL
reported for a processed day in the final table. -/
theorem run_days_facts (nid : String) (now : Int)
    (adapter : Int → List (String × PyDatetime)) :
    ∀ (ds : List Int) (t t' : List DbIndexedRow),
      run_days nid now adapter ds t = (t', none) →
      ∀ d ∈ ds, (adapter d).all (fun p => p.2.tzOffset.isSome) = true
        ∧ ∀ p ∈ adapter d, strip_query p.1 ∈ tableUrls t' := by
  intro ds
  induction ds with
  | nil => intro t t' _ d hd; cases hd
  | cons d0 ds ih =>
    intro t t' h d hd
    simp only [run_days] at h
    cases hi : index_day nid now t (adapter d0) with
    | error e =>
      rw [hi] at h
      have h' : ((t, some e) : List DbIndexedRow × Option String) = (t', none) := h
      simp at h'
    | ok t1 =>
      rw [hi] at h
      have h' : run_days nid now adapter ds t1 = (t', none) := h
      rcases List.mem_cons.1 hd with rfl | hd'
      · obtain ⟨_, hall⟩ := index_day_ok_shape _ _ _ _ _ hi
        refine ⟨hall, ?_⟩
        intro p hp
        have hp1 := index_day_urls_present _ _ _ _ _ hi p hp
        obtain ⟨ext, hext⟩ := run_days_append nid now adapter ds t1
        have ht' : t' = t1 ++ ext := by
          rw [h'] at hext
          exact hext
        rw [ht', tableUrls_append]
        exact List.mem_append_left _ hp1
      · exact ih t1 t' h' d hd'

/-- When every URL of every pending day is already present and the
timezone checks pass, a run is a complete no-op. -/
theorem run_days_noop (nid : String) (now : Int)
    (adapter : Int → List (String × PyDatetime)) (ds : List Int) (t : List DbIndexedRow)
    (hds : ∀ d ∈ ds, (adapter d).all (fun p => p.2.tzOffset.isSome) = true
            ∧ ∀ p ∈ adapter d, strip_query p.1 ∈ tableUrls t) :
    run_days nid now adapter ds t = (t, none) := by
  induction ds with
  | nil => rfl
  | cons d ds ih =>
    obtain ⟨hall, hurls⟩ := hds d (List.mem_cons_self d ds)
    have hfilter : ((adapter d).map (mk_date_row nid now)).filter
        (fun r => decide (r.url ∉ tableUrls t)) = [] := by
      rw [List.filter_eq_nil_iff]
      intro r hr
      obtain ⟨p, hp, rfl⟩ := List.mem_map.1 hr
      simp [mk_date_row, hurls p hp]
    have hstep : index_day nid now t (adapter d) = .ok t := by
      rw [index_day, if_pos hall]
      show Except.ok (t ++ ((adapter d).map (mk_date_row nid now)).filter
        (fun r => decide (r.url ∉ tableUrls t))) = Except.ok t
      rw [hfilter, List.append_nil]
    simp only [run_days]
    rw [hstep]
    exact ih (fun d' hd' => hds d' (List.mem_cons_of_mem _ hd'))

/-- Uniqueness of the URL index is preserved by a run when each day's
reported URL list is duplicate-free. -/
theorem run_days_nodup (nid : String) (now : Int)
    (adapter : Int → List (String × PyDatetime)) :
    ∀ (ds : List Int) (t : List DbIndexedRow),
      (tableUrls t).Nodup →
      (∀ d ∈ ds, (day_result_urls (adapter d)).Nodup) →
      (tableUrls (run_days nid now adapter ds t).1).Nodup := by
  intro ds
  induction ds with
  | nil => intro t h _; exact h
  | cons d ds ih =>
    intro t hnd hday
    simp only [run_days]
    cases hi : index_day nid now t (adapter d) with
    | error e => exact hnd
    | ok t1 =>
      refine ih t1 ?_ (fun d' h' => hday d' (List.mem_cons_of_mem _ h'))
      obtain ⟨rfl, _⟩ := index_day_ok_shape _ _ _ _ _ hi
      rw [tableUrls_append]
      have hmapnd : (tableUrls ((adapter d).map (mk_date_row nid now))).Nodup := by
        have h1 : tableUrls ((adapter d).map (mk_date_row nid now))
            = day_result_urls (adapter d) := by
          simp only [tableUrls, day_result_urls, List.map_map]
          rfl
        rw [h1]
        exact hday d (List.mem_cons_self _ _)
      refine List.Nodup.append hnd (hmapnd.sublist ((List.filter_sublist _).map _)) ?_
      intro u hu hu'
      obtain ⟨r, hr, hru⟩ := List.mem_map.1 hu'
      subst hru
      exact (of_decide_eq_true (List.mem_filter.1 hr).2) hu

/-- `indexed_dates` distributes over append. -/
theorem indexed_dates_append (nid : String) (a b : List DbIndexedRow) :
    indexed_dates nid (a ++ b) = indexed_dates nid a ++ indexed_dates nid b := by
  simp [indexed_dates, List.filter_append, List.filterMap_append]

/-! ## Claim theorems -/

/-- C7: edition-range resolution expands the bounds to the full ordered
sequence of (year, edition) units, with `1..editions_per_year` for each
complete intermediate year; in particular `2020-1`..`2020-3` with 55
editions per year and an empty existing state resolves to exactly
`2020-1, 2020-2, 2020-3` in order. -/
theorem c7_edition_range_resolution :
    (∀ yf ef yt et epy, edition_range yf ef yt et epy = edition_range_spec yf ef yt et epy)
    ∧ (resolve_edition_units "x" [] 2020 1 2020 3 55 true).map edition_label
        = ["2020-1", "2020-2", "2020-3"] := by
  constructor
  · intro yf ef yt et epy
    unfold edition_range edition_range_spec
    apply flatMap_congr_on
    intro year _
    cases h1 : year == yf <;> cases h2 : year == yt <;> simp [h1, h2]
  · decide

/-- C3 counterexample: in the signal model of `delay_interrupt` (which
installs `SIG_IGN` and later restores the saved handler), a SIGINT arriving
after 1 of 2 body steps lets the body finish but is discarded, not
redelivered: the run ends with zero delivered signals, refuting "the signal
is deferred until the operation completes and is then redelivered ...
never lost". -/
theorem c3_interrupt_counterexample :
    (sig_run (delay_interrupt_trace 2 1) initProc).bodyStepsDone = 2
    ∧ ¬ ((sig_run (delay_interrupt_trace 2 1) initProc).deliveredSignals = 1
          ∧ (sig_run (delay_interrupt_trace 2 1) initProc).discardedSignals = 0) := by
  decide

/-- C3 amended: a signal arriving while a `delay_interrupt`-shielded
operation runs does not interrupt it — the operation completes and the
previous handler is restored afterwards — but the signal is discarded by
`SIG_IGN`, not deferred: it is never redelivered to the process. -/
theorem c3_interrupt_ignored (n k : Nat) (hk : k ≤ n) :
    (sig_run (delay_interrupt_trace n k) initProc).bodyStepsDone = n
    ∧ (sig_run (delay_interrupt_trace n k) initProc).running = true
    ∧ (sig_run (delay_interrupt_trace n k) initProc).handler = .defaultH
    ∧ (sig_run (delay_interrupt_trace n k) initProc).deliveredSignals = 0
    ∧ (sig_run (delay_interrupt_trace n k) initProc).discardedSignals = 1 := by
  rw [delay_interrupt_run_eq n k]
  refine ⟨?_, rfl, rfl, rfl, rfl⟩
  simp
  omega

/-- C3 amended, witness at `n = 3`, `k = 2`. -/
theorem c3_interrupt_ignored_witness :
    (sig_run (delay_interrupt_trace 3 2) initProc).bodyStepsDone = 3
    ∧ (sig_run (delay_interrupt_trace 3 2) initProc).running = true
    ∧ (sig_run (delay_interrupt_trace 3 2) initProc).handler = .defaultH
    ∧ (sig_run (delay_interrupt_trace 3 2) initProc).deliveredSignals = 0
    ∧ (sig_run (delay_interrupt_trace 3 2) initProc).discardedSignals = 1 :=
  c3_interrupt_ignored 3 2 (by decide)

/-- C9: saving the Scraped relation in append mode with an empty pending
buffer performs no write — the durable tables and every in-memory table are
unchanged, no write event occurs and no error is raised, whether or not the
call is forced past the save-interval check. -/
theorem c9_empty_append_noop (s : DbState) (force : Bool) (now saveInterval : Int)
    (firstOk secondOk : Bool) (h : s.dfScrapedNew = []) :
    dbTables (save_data s "df_scraped" "append" force now saveInterval firstOk secondOk).1
        = dbTables s
    ∧ (save_data s "df_scraped" "append" force now saveInterval firstOk secondOk).2
        = ⟨false, none⟩ := by
  cases hcond : (!force && decide (s.lastSaveScraped + saveInterval > now)) with
  | true => simp [save_data, last_save_of, hcond, dbTables]
  | false => simp [save_data, last_save_of, set_last_save, hcond, h, dbTables]

/-- C9, witness on an empty database state. -/
theorem c9_empty_append_noop_witness :
    dbTables (save_data
        { dfIndexed := [], dfScrapedNew := [], dfProcessedNew := [], tblIndexed := [],
          tblScraped := [], tblProcessed := [], lastSaveIndexed := 0, lastSaveScraped := 0,
          lastSaveProcessed := 0 } "df_scraped" "append" false 100 60 true true).1
      = dbTables
        { dfIndexed := [], dfScrapedNew := [], dfProcessedNew := [], tblIndexed := [],
          tblScraped := [], tblProcessed := [], lastSaveIndexed := 0, lastSaveScraped := 0,
          lastSaveProcessed := 0 }
    ∧ (save_data
        { dfIndexed := [], dfScrapedNew := [], dfProcessedNew := [], tblIndexed := [],
          tblScraped := [], tblProcessed := [], lastSaveIndexed := 0, lastSaveScraped := 0,
          lastSaveProcessed := 0 } "df_scraped" "append" false 100 60 true true).2
      = ⟨false, none⟩ :=
  c9_empty_append_noop _ false 100 60 true true rfl

/-- C10: in `save_data` with `mode='append'` the pending buffer is reset to
empty before the SQL write is attempted on a copy, so when the write fails
even after the single schema-fix retry the buffered rows are gone from the
in-memory buffer (the in-memory state is not left unchanged on error),
while the durable table keeps its old contents. -/
theorem c10_buffer_cleared_on_failed_append (s : DbState) (now saveInterval : Int)
    (hne : s.dfScrapedNew ≠ []) :
    (save_data s "df_scraped" "append" true now saveInterval false false).1.dfScrapedNew = []
    ∧ (save_data s "df_scraped" "append" true now saveInterval false false).2
        = ⟨false, some .opError⟩
    ∧ (save_data s "df_scraped" "append" true now saveInterval false false).1.dfScrapedNew
        ≠ s.dfScrapedNew
    ∧ (save_data s "df_scraped" "append" true now saveInterval false false).1.tblScraped
        = s.tblScraped := by
  have hie : s.dfScrapedNew.isEmpty = false := by
    cases hd : s.dfScrapedNew with
    | nil => exact absurd hd hne
    | cons a l => rfl
  refine ⟨?_, ?_, ?_, ?_⟩ <;>
    simp [save_data, last_save_of, set_last_save, attempt_write, hie, Ne.symm hne]

/-- C10, witness on a one-row pending buffer. -/
theorem c10_buffer_cleared_witness :
    (save_data
        { dfIndexed := [], dfScrapedNew := [⟨"u", [], 0⟩], dfProcessedNew := [],
          tblIndexed := [], tblScraped := [], tblProcessed := [], lastSaveIndexed := 0,
          lastSaveScraped := 0, lastSaveProcessed := 0 }
        "df_scraped" "append" true 100 60 false false).1.dfScrapedNew = []
    ∧ (save_data
        { dfIndexed := [], dfScrapedNew := [⟨"u", [], 0⟩], dfProcessedNew := [],
          tblIndexed := [], tblScraped := [], tblProcessed := [], lastSaveIndexed := 0,
          lastSaveScraped := 0, lastSaveProcessed := 0 }
        "df_scraped" "append" true 100 60 false false).2 = ⟨false, some .opError⟩
    ∧ (save_data
        { dfIndexed := [], dfScrapedNew := [⟨"u", [], 0⟩], dfProcessedNew := [],
          tblIndexed := [], tblScraped := [], tblProcessed := [], lastSaveIndexed := 0,
          lastSaveScraped := 0, lastSaveProcessed := 0 }
        "df_scraped" "append" true 100 60 false false).1.dfScrapedNew ≠ [⟨"u", [], 0⟩]
    ∧ (save_data
        { dfIndexed := [], dfScrapedNew := [⟨"u", [], 0⟩], dfProcessedNew := [],
          tblIndexed := [], tblScraped := [], tblProcessed := [], lastSaveIndexed := 0,
          lastSaveScraped := 0, lastSaveProcessed := 0 }
        "df_scraped" "append" true 100 60 false false).1.tblScraped = [] :=
  c10_buffer_cleared_on_failed_append _ 100 60 (by decide)

/-- C2: after `connect()` the `scraped`/`processed` flags of every loaded
Indexed row are exactly membership of its URL in the Scraped respectively
Processed tables, and the loaded table does not depend on the flag values
stored on disk. -/
theorem c2_derived_flags (disk : List DiskIndexedRow) (sUrls pUrls : List String)
    (r : DbIndexedRow) (hr : r ∈ load_indexed disk sUrls pUrls)
    (f g : DiskIndexedRow → PubCell) :
    (r.url ∈ sUrls ↔ r.scraped = true)
    ∧ (r.url ∈ pUrls ↔ r.processed = true)
    ∧ load_indexed (disk.map (fun d => { d with scraped := f d, processed := g d }))
        sUrls pUrls
      = load_indexed disk sUrls pUrls := by
  refine ⟨?_, ?_, ?_⟩
  · obtain ⟨d, _, rfl⟩ := List.mem_map.1 hr
    by_cases hm : d.url ∈ sUrls <;> simp [bool_handle_true, hm]
  · obtain ⟨d, _, rfl⟩ := List.mem_map.1 hr
    by_cases hm : d.url ∈ pUrls <;> simp [bool_handle_true, bool_handle_false, hm]
  · rw [load_indexed, load_indexed, List.map_map]
    rfl

/-- C2, witness: a disk row whose stored flags disagree with table
membership is loaded with recomputed flags. -/
theorem c2_derived_flags_witness :
    ((mkLoadedWitnessRow).url ∈ ["u"] ↔ (mkLoadedWitnessRow).scraped = true)
    ∧ ((mkLoadedWitnessRow).url ∈ ["v"] ↔ (mkLoadedWitnessRow).processed = true)
    ∧ load_indexed ([mkDiskWitnessRow].map
        (fun d => { d with scraped := PubCell.null, processed := PubCell.null })) ["u"] ["v"]
      = load_indexed [mkDiskWitnessRow] ["u"] ["v"] :=
  c2_derived_flags [mkDiskWitnessRow] ["u"] ["v"] mkLoadedWitnessRow (by decide)
    (fun _ => PubCell.null) (fun _ => PubCell.null)

/-- C8: when candidates exist and the adapter login reports failure, the
premium pass emits the login-failure warning and returns with the state it
was given — no Indexed or Scraped row is modified and nothing is raised
(the call returns normally). -/
theorem c8_login_failure_skips (nid : String) (seleniumGet : String → String)
    (parse : String → String → List (String × String)) (now : Int) (s : MgrState)
    (hne : to_scrape_premium nid s.dfIndexed ≠ []) :
    scrape_premium_articles nid false seleniumGet parse now s
      = (s, ["Login failed. Skip scraping."]) := by
  have hie : (to_scrape_premium nid s.dfIndexed).isEmpty = false := by
    cases hd : to_scrape_premium nid s.dfIndexed with
    | nil => exact absurd hd hne
    | cons a l => rfl
  simp [scrape_premium_articles, hie]

/-- C8, witness: one pending paywalled unscraped row, login fails. -/
theorem c8_login_failure_witness :
    scrape_premium_articles "x" false (fun _ => "") (fun _ _ => []) 0 premiumWitnessState
      = (premiumWitnessState, ["Login failed. Skip scraping."]) :=
  c8_login_failure_skips "x" (fun _ => "") (fun _ _ => []) 0 premiumWitnessState (by decide)

/-- C5: a date-mode indexing unit is rejected (the assert raises, nothing
is stored) exactly when some publication timestamp lacks timezone
information; when the unit is accepted, the row built for each pair stores
the publication timestamp converted to its UTC instant, and the row is
merged whenever its URL is new. -/
theorem c5_timezone_invariant (nid : String) (now : Int) (table : List DbIndexedRow)
    (dayResult : List (String × PyDatetime)) :
    ((∃ p ∈ dayResult, p.2.tzOffset = none) ↔
        index_day nid now table dayResult
          = .error "Not all pub_dates contain timezone info.")
    ∧ (∀ t', index_day nid now table dayResult = .ok t' →
        ∀ p ∈ dayResult,
          (mk_date_row nid now p).pubDateIndexPage = utc_instant p.2
          ∧ (strip_query p.1 ∉ tableUrls table → mk_date_row nid now p ∈ t')) := by
  constructor
  · constructor
    · rintro ⟨p, hp, hnone⟩
      have hall : dayResult.all (fun p => p.2.tzOffset.isSome) = false := by
        rw [List.all_eq_false]
        exact ⟨p, hp, by simp [hnone]⟩
      simp [index_day, hall]
    · intro herr
      by_contra hno
      push_neg at hno
      have hall : dayResult.all (fun p => p.2.tzOffset.isSome) = true := by
        rw [List.all_eq_true]
        intro p hp
        simpa [Option.isSome_iff_ne_none] using hno p hp
      simp [index_day, hall] at herr
  · intro t' hok p hp
    have hall : dayResult.all (fun p => p.2.tzOffset.isSome) = true := by
      by_contra hf
      simp [index_day, Bool.eq_false_iff.2 hf] at hok
    have hsome : p.2.tzOffset.isSome = true := List.all_eq_true.1 hall p hp
    obtain ⟨off, hoff⟩ := Option.isSome_iff_exists.1 hsome
    constructor
    · simp [mk_date_row, astimezone_utc, utc_instant, hoff]
    · intro hnew
      have ht' : t' = table ++ (dayResult.map (mk_date_row nid now)).filter
          (fun r => decide (r.url ∉ tableUrls table)) := by
        have := hok
        rw [index_day] at this
        rw [if_pos hall] at this
        exact (Except.ok.inj this).symm
      subst ht'
      refine List.mem_append_right _ (List.mem_filter.2 ⟨List.mem_map_of_mem _ hp, ?_⟩)
      simpa [mk_date_row] using hnew

/-- C5, witness: a naive timestamp makes the unit raise, and an aware
timestamp with offset +60 minutes is stored as its UTC instant. -/
theorem c5_timezone_witness :
    index_day "x" 0 [] [("u", ⟨100, none⟩)]
        = .error "Not all pub_dates contain timezone info."
    ∧ (mk_date_row "x" 0 ("v?q", ⟨120, some 60⟩)).pubDateIndexPage
        = utc_instant ⟨120, some 60⟩
    ∧ mk_date_row "x" 0 ("v?q", ⟨120, some 60⟩)
        ∈ [mk_date_row "x" 0 ("v?q", ⟨120, some 60⟩)] :=
  have h2 := (c5_timezone_invariant "x" 0 [] [("v?q", ⟨120, some 60⟩)]).2
    [mk_date_row "x" 0 ("v?q", ⟨120, some 60⟩)] rfl
    ("v?q", ⟨120, some 60⟩) (List.mem_singleton.2 rfl)
  ⟨(c5_timezone_invariant "x" 0 [] [("u", ⟨100, none⟩)]).1.mp
      ⟨("u", ⟨100, none⟩), List.mem_singleton.2 rfl, rfl⟩,
    h2.1, h2.2 (by decide)⟩

/-- C1: date-range indexing with `skip_existing=true` is idempotent for a
fixed per-day adapter result.  If the first run completes with table `s1`,
a second run over the same range returns `s1` unchanged (days covered by
`s1`'s publication dates are skipped; the rest merge nothing new); the
multiplicity of any URL already present — for any publisher — is unchanged
by the first run, so it is never added a second time; and the URL index
stays duplicate-free whenever each day's reported URL list is. -/
theorem c1_index_idempotent (nid : String) (now now2 : Int)
    (adapter : Int → List (String × PyDatetime)) (dateFrom dateTo : Int)
    (table s1 : List DbIndexedRow)
    (h1 : index_articles_by_date_range nid now adapter dateFrom dateTo true table
            = (s1, none)) :
    index_articles_by_date_range nid now2 adapter dateFrom dateTo true s1 = (s1, none)
    ∧ (∀ u ∈ tableUrls table, (tableUrls s1).count u = (tableUrls table).count u)
    ∧ ((tableUrls table).Nodup →
        (∀ d ∈ date_range_list dateFrom dateTo, (day_result_urls (adapter d)).Nodup) →
        (tableUrls s1).Nodup) := by
  rw [index_articles_by_date_range] at h1
  obtain ⟨ext, hext⟩ := run_days_append nid now adapter
    (resolve_date_range nid table dateFrom dateTo true) table
  have hs1 : s1 = table ++ ext := by
    rw [h1] at hext
    exact hext
  refine ⟨?_, ?_, ?_⟩
  · rw [index_articles_by_date_range]
    apply run_days_noop
    intro d hd
    have hd' : d ∈ (date_range_list dateFrom dateTo).filter
        (fun x => decide (x ∉ indexed_dates nid s1)) := hd
    obtain ⟨hdr, hdnotin⟩ := List.mem_filter.1 hd'
    have hnotin0 : d ∉ indexed_dates nid table := by
      intro hmem
      refine (of_decide_eq_true hdnotin) ?_
      rw [hs1, indexed_dates_append]
      exact List.mem_append_left _ hmem
    have hd1 : d ∈ resolve_date_range nid table dateFrom dateTo true := by
      show d ∈ (date_range_list dateFrom dateTo).filter
        (fun x => decide (x ∉ indexed_dates nid table))
      exact List.mem_filter.2 ⟨hdr, decide_eq_true hnotin0⟩
    exact run_days_facts nid now adapter _ table s1 h1 d hd1
  · intro u hu
    have hc := run_days_count nid now adapter
      (resolve_date_range nid table dateFrom dateTo true) table u hu
    rw [h1] at hc
    exact hc
  · intro hnd hday
    have hn := run_days_nodup nid now adapter
      (resolve_date_range nid table dateFrom dateTo true) table hnd
      (fun d hd => hday d (List.mem_filter.1 hd).1)
    rw [h1] at hn
    exact hn

/-- C1, witness: publisher `"x"`, a one-article day 0 and an empty day 1,
starting from the empty table. -/
theorem c1_index_idempotent_witness :
    index_articles_by_date_range "x" 9 c1_adapter 0 1 true
        [mk_date_row "x" 5 ("u?a", ⟨0, some 0⟩)]
      = ([mk_date_row "x" 5 ("u?a", ⟨0, some 0⟩)], none)
    ∧ (tableUrls [mk_date_row "x" 5 ("u?a", ⟨0, some 0⟩)]).Nodup :=
  have h := c1_index_idempotent "x" 5 9 c1_adapter 0 1 []
    [mk_date_row "x" 5 ("u?a", ⟨0, some 0⟩)] (by decide)
  ⟨h.1, h.2.2 (by decide) (by decide)⟩

/-- `find?` on the URL key commutes with a row map that keeps URLs. -/
theorem find_map_url_pres (t : List DbIndexedRow) (f : DbIndexedRow → DbIndexedRow)
    (hf : ∀ r, (f r).url = r.url) (v : String) :
    (t.map f).find? (fun r => r.url == v) = (t.find? (fun r => r.url == v)).map f := by
  have hp : ((fun r : DbIndexedRow => r.url == v) ∘ f)
      = (fun r : DbIndexedRow => r.url == v) := funext fun r => by
    simp [Function.comp, hf r]
  rw [List.find?_map, hp]

/-- A row map that keeps URLs and never lowers `scraped` never lowers
`scraped_flag`. -/
theorem scraped_flag_map_mono (t : List DbIndexedRow) (f : DbIndexedRow → DbIndexedRow)
    (hf : ∀ r, (f r).url = r.url) (hs : ∀ r, r.scraped = true → (f r).scraped = true)
    (v : String) (h : scraped_flag t v = true) : scraped_flag (t.map f) v = true := by
  rw [scraped_flag, find_map_url_pres t f hf v]
  rw [scraped_flag] at h
  cases hfind : t.find? (fun r => r.url == v) with
  | none => rw [hfind] at h; cases h
  | some r =>
    rw [hfind] at h
    simpa using hs r h

/-- Appending rows never lowers `scraped_flag`. -/
theorem scraped_flag_append_mono (t ext : List DbIndexedRow) (v : String)
    (h : scraped_flag t v = true) : scraped_flag (t ++ ext) v = true := by
  rw [scraped_flag] at h ⊢
  cases hfind : t.find? (fun r => r.url == v) with
  | none => rw [hfind] at h; cases h
  | some r =>
    rw [hfind] at h
    rw [List.find?_append, hfind]
    simpa using h

/-- `set_scraped` keeps URLs. -/
theorem set_scraped_url_pres (u : String) :
    ∀ r : DbIndexedRow,
      ((if r.url == u then { r with scraped := true } else r) : DbIndexedRow).url = r.url := by
  intro r
  split <;> rfl

/-- `set_public` keeps URLs. -/
theorem set_public_url_pres (u : String) (b : Bool) :
    ∀ r : DbIndexedRow,
      ((if r.url == u then { r with public := .pbool b } else r) : DbIndexedRow).url = r.url := by
  intro r
  split <;> rfl

/-- `set_processed` keeps URLs. -/
theorem set_processed_url_pres (u : String) :
    ∀ r : DbIndexedRow,
      ((if r.url == u then { r with processed := true } else r) : DbIndexedRow).url = r.url := by
  intro r
  split <;> rfl

/-- `set_scraped` never lowers `scraped_flag`. -/
theorem scraped_flag_set_scraped_mono (t : List DbIndexedRow) (u v : String)
    (h : scraped_flag t v = true) : scraped_flag (set_scraped t u) v = true :=
  scraped_flag_map_mono t _ (set_scraped_url_pres u)
    (fun r hr => by by_cases hc : (r.url == u) = true <;> simp [hc, hr]) v h

/-- `set_public` does not change any `scraped` field. -/
theorem scraped_flag_set_public_mono (t : List DbIndexedRow) (u : String) (b : Bool)
    (v : String) (h : scraped_flag t v = true) :
    scraped_flag (set_public t u b) v = true :=
  scraped_flag_map_mono t _ (set_public_url_pres u b)
    (fun r hr => by by_cases hc : (r.url == u) = true <;> simp [hc, hr]) v h

/-- `set_processed` does not change any `scraped` field. -/
theorem scraped_flag_set_processed_mono (t : List DbIndexedRow) (u v : String)
    (h : scraped_flag t v = true) : scraped_flag (set_processed t u) v = true :=
  scraped_flag_map_mono t _ (set_processed_url_pres u)
    (fun r hr => by by_cases hc : (r.url == u) = true <;> simp [hc, hr]) v h

/-- One public-scrape step never lowers `scraped_flag`. -/
theorem scrape_public_step_scraped_mono (fetch : String → FetchResult)
    (parse : String → String → List (String × String)) (now : Int)
    (acc : MgrState × List String) (u v : String)
    (h : scraped_flag acc.1.dfIndexed v = true) :
    scraped_flag (scrape_public_step fetch parse now acc u).1.dfIndexed v = true := by
  rw [scrape_public_step]
  cases fetch u with
  | fetchError => exact scraped_flag_set_public_mono _ _ _ _ h
  | ok html isPublic =>
    cases isPublic with
    | false => exact scraped_flag_set_public_mono _ _ _ _ h
    | true =>
      exact scraped_flag_set_public_mono _ _ _ _ (scraped_flag_set_scraped_mono _ _ _ h)

/-- The public-scrape loop never lowers `scraped_flag`. -/
theorem scrape_public_fold_scraped_mono (fetch : String → FetchResult)
    (parse : String → String → List (String × String)) (now : Int) (us : List String) :
    ∀ (acc : MgrState × List String) (v : String),
      scraped_flag acc.1.dfIndexed v = true →
      scraped_flag ((us.foldl (scrape_public_step fetch parse now) acc).1.dfIndexed) v
        = true := by
  induction us with
  | nil => intro acc v h; exact h
  | cons u us ih =>
    intro acc v h
    rw [List.foldl_cons]
    exact ih _ v (scrape_public_step_scraped_mono fetch parse now acc u v h)

/-- The premium-scrape loop never lowers `scraped_flag`. -/
theorem scrape_premium_fold_scraped_mono (seleniumGet : String → String)
    (parse : String → String → List (String × String)) (now : Int) (us : List String) :
    ∀ (acc : MgrState × List String) (v : String),
      scraped_flag acc.1.dfIndexed v = true →
      scraped_flag ((us.foldl
          (fun acc url =>
            ({ acc.1 with
                dfIndexed := set_scraped acc.1.dfIndexed url
                dfScrapedNew := acc.1.dfScrapedNew
                  ++ [parse_row parse (seleniumGet url) url now] },
              acc.2)) acc).1.dfIndexed) v = true := by
  induction us with
  | nil => intro acc v h; exact h
  | cons u us ih =>
    intro acc v h
    rw [List.foldl_cons]
    exact ih _ v (scraped_flag_set_scraped_mono _ _ _ h)

/-- The enrichment loop never lowers `scraped_flag`. -/
theorem nlp_fold_scraped_mono (process : String → String → List (String × String))
    (now : Int) (rows : List ScrapedRow) :
    ∀ (st : MgrState) (v : String),
      scraped_flag st.dfIndexed v = true →
      scraped_flag ((rows.foldl
          (fun st row =>
            { st with
                dfProcessedNew := st.dfProcessedNew ++
                  [{ url := row.url, fields := process (row_text row) row.url,
                     dateProcessed := now }]
                dfIndexed := set_processed st.dfIndexed row.url }) st).dfIndexed) v
        = true := by
  induction rows with
  | nil => intro st v h; exact h
  | cons row rows ih =>
    intro st v h
    rw [List.foldl_cons]
    exact ih _ v (scraped_flag_set_processed_mono _ _ _ h)

/-- The edition-indexing loop only appends rows. -/
theorem index_edition_fold_append (nid : String) (now : Int)
    (adapter : Nat → Nat → List String) (units : List (Nat × Nat)) :
    ∀ t : List DbIndexedRow,
      ∃ ext, units.foldl
          (fun t p => index_edition_step nid now t p.1 p.2 (adapter p.1 p.2)) t
        = t ++ ext := by
  induction units with
  | nil => intro t; exact ⟨[], (List.append_nil t).symm⟩
  | cons p units ih =>
    intro t
    obtain ⟨ext1, h1⟩ := ih (index_edition_step nid now t p.1 p.2 (adapter p.1 p.2))
    have hstep : ∃ x, index_edition_step nid now t p.1 p.2 (adapter p.1 p.2) = t ++ x :=
      ⟨_, rfl⟩
    obtain ⟨x, hx⟩ := hstep
    rw [List.foldl_cons, h1, hx, List.append_assoc]
    exact ⟨x ++ ext1, rfl⟩

/-- No driver invocation ever lowers the `scraped` flag of any URL. -/
theorem apply_op_scraped_mono (op : MgrOp) (s : MgrState) (v : String)
    (h : scraped_flag s.dfIndexed v = true) :
    scraped_flag (apply_op op s).dfIndexed v = true := by
  cases op with
  | opIndexDate nid now adapter a b skip =>
    obtain ⟨ext, hext⟩ := run_days_append nid now adapter
      (resolve_date_range nid s.dfIndexed a b skip) s.dfIndexed
    show scraped_flag (index_articles_by_date_range nid now adapter a b skip s.dfIndexed).1
      v = true
    rw [index_articles_by_date_range, hext]
    exact scraped_flag_append_mono _ _ _ h
  | opIndexEdition nid now adapter yf ef yt et epy skip =>
    obtain ⟨ext, hext⟩ := index_edition_fold_append nid now adapter
      (resolve_edition_units nid s.dfIndexed yf ef yt et epy skip) s.dfIndexed
    show scraped_flag
      (index_articles_by_edition nid now adapter yf ef yt et epy skip s.dfIndexed) v = true
    rw [index_articles_by_edition, hext]
    exact scraped_flag_append_mono _ _ _ h
  | opScrapePublic nid fetch parse now =>
    show scraped_flag (scrape_public_articles nid fetch parse now s).1.dfIndexed v = true
    simp only [scrape_public_articles]
    split
    · exact h
    · exact scrape_public_fold_scraped_mono fetch parse now _ (s, []) v h
  | opScrapePremium nid login seleniumGet parse now =>
    show scraped_flag (scrape_premium_articles nid login seleniumGet parse now s).1.dfIndexed
      v = true
    simp only [scrape_premium_articles]
    split
    · exact h
    · split
      · exact h
      · exact scrape_premium_fold_scraped_mono seleniumGet parse now _ (s, []) v h
  | opNlp nid dfScraped process now =>
    show scraped_flag (nlp_articles nid dfScraped process now s).dfIndexed v = true
    simp only [nlp_articles]
    split
    · exact h
    · exact nlp_fold_scraped_mono process now _ s v h

/-- C4: the `scraped` flag is monotonic — along the trace of states of any
sequence of index, scrape-public, scrape-premium and enrichment
invocations, a URL's flag forms a monotone Boolean sequence: it flips
false-to-true at most once and never goes back from true to false. -/
theorem c4_scraped_monotonic (ops : List MgrOp) (s : MgrState) (url : String) :
    List.Chain' (fun a b => a ≤ b)
      ((op_trace s ops).map (fun st => scraped_flag st.dfIndexed url)) := by
  induction ops generalizing s with
  | nil => simp [op_trace]
  | cons op ops ih =>
    rw [op_trace, List.map_cons, List.chain'_cons']
    refine ⟨?_, ih (apply_op op s)⟩
    intro y hy
    have hhead : ((op_trace (apply_op op s) ops).map
        (fun st => scraped_flag st.dfIndexed url)).head?
        = some (scraped_flag (apply_op op s).dfIndexed url) := by
      cases ops <;> rfl
    rw [hhead] at hy
    have hy' : y = scraped_flag (apply_op op s).dfIndexed url := by
      simpa using hy.symm
    subst hy'
    cases hb : scraped_flag s.dfIndexed url with
    | false => exact Bool.false_le _
    | true => rw [apply_op_scraped_mono op s url hb]

/-- A row map that keeps URLs keeps the URL index. -/
theorem tableUrls_map_pres (t : List DbIndexedRow) (f : DbIndexedRow → DbIndexedRow)
    (hf : ∀ r, (f r).url = r.url) : tableUrls (t.map f) = tableUrls t := by
  simp [tableUrls, List.map_map, Function.comp, hf]

/-- `set_public` keeps the URL index. -/
theorem tableUrls_set_public (t : List DbIndexedRow) (u : String) (b : Bool) :
    tableUrls (set_public t u b) = tableUrls t :=
  tableUrls_map_pres t _ (set_public_url_pres u b)

/-- `set_scraped` keeps the URL index. -/
theorem tableUrls_set_scraped (t : List DbIndexedRow) (u : String) :
    tableUrls (set_scraped t u) = tableUrls t :=
  tableUrls_map_pres t _ (set_scraped_url_pres u)

/-- Restatement of `List.find?_some` with the predicate explicit. -/
theorem find_some_pred {α : Type} (p : α → Bool) (l : List α) (a : α)
    (h : l.find? p = some a) : p a = true :=
  List.find?_some h

/-- `set_public` records the value on the targeted, present URL. -/
theorem public_flag_set_public_self (t : List DbIndexedRow) (u : String) (b : Bool)
    (hu : u ∈ tableUrls t) : public_flag (set_public t u b) u = .pbool b := by
  rw [public_flag, set_public, find_map_url_pres _ _ (set_public_url_pres u b) u]
  cases hfind : t.find? (fun r => r.url == u) with
  | none =>
    rw [List.find?_eq_none] at hfind
    obtain ⟨r, hr, hru⟩ := List.mem_map.1 hu
    exact absurd (by simp [hru]) (hfind r hr)
  | some r =>
    have hrq : r.url = u :=
      beq_iff_eq.1 (find_some_pred (fun r : DbIndexedRow => r.url == u) t r hfind)
    simp [hrq]

/-- `set_public` leaves other URLs' `Public` cells alone. -/
theorem public_flag_set_public_other (t : List DbIndexedRow) (u : String) (b : Bool)
    (v : String) (hne : v ≠ u) : public_flag (set_public t u b) v = public_flag t v := by
  rw [public_flag, public_flag, set_public, find_map_url_pres _ _ (set_public_url_pres u b) v]
  cases hfind : t.find? (fun r => r.url == v) with
  | none => rfl
  | some r =>
    have hrv : r.url = v :=
      beq_iff_eq.1 (find_some_pred (fun r : DbIndexedRow => r.url == v) t r hfind)
    simp [hrv, hne]

/-- `set_scraped` never changes a `Public` cell. -/
theorem public_flag_set_scraped (t : List DbIndexedRow) (u v : String) :
    public_flag (set_scraped t u) v = public_flag t v := by
  rw [public_flag, public_flag, set_scraped, find_map_url_pres _ _ (set_scraped_url_pres u) v]
  cases hfind : t.find? (fun r => r.url == v) with
  | none => rfl
  | some r =>
    show ((if r.url == u then { r with scraped := true } else r) : DbIndexedRow).public
      = r.public
    split <;> rfl

/-- `set_public` never changes a `Scraped` cell. -/
theorem scraped_flag_set_public (t : List DbIndexedRow) (u : String) (b : Bool)
    (v : String) : scraped_flag (set_public t u b) v = scraped_flag t v := by
  rw [scraped_flag, scraped_flag, set_public, find_map_url_pres _ _ (set_public_url_pres u b) v]
  cases hfind : t.find? (fun r => r.url == v) with
  | none => rfl
  | some r =>
    show ((if r.url == u then { r with public := .pbool b } else r) : DbIndexedRow).scraped
      = r.scraped
    split <;> rfl

/-- `set_scraped` leaves other URLs' `Scraped` cells alone. -/
theorem scraped_flag_set_scraped_other (t : List DbIndexedRow) (u v : String)
    (hne : v ≠ u) : scraped_flag (set_scraped t u) v = scraped_flag t v := by
  rw [scraped_flag, scraped_flag, set_scraped, find_map_url_pres _ _ (set_scraped_url_pres u) v]
  cases hfind : t.find? (fun r => r.url == v) with
  | none => rfl
  | some r =>
    have hrv : r.url = v :=
      beq_iff_eq.1 (find_some_pred (fun r : DbIndexedRow => r.url == v) t r hfind)
    simp [hrv, hne]

/-- Evaluation of one public-scrape step on the adapter's failure path. -/
theorem scrape_public_step_fetchError (fetch : String → FetchResult)
    (parse : String → String → List (String × String)) (now : Int)
    (acc : MgrState × List String) (u : String) (h : fetch u = .fetchError) :
    scrape_public_step fetch parse now acc u
      = ({ acc.1 with dfIndexed := set_public acc.1.dfIndexed u false },
          acc.2 ++ [s!"Error scraping {u}."]) := by
  unfold scrape_public_step
  rw [h]

/-- Evaluation of one public-scrape step on a public page. -/
theorem scrape_public_step_ok_true (fetch : String → FetchResult)
    (parse : String → String → List (String × String)) (now : Int)
    (acc : MgrState × List String) (u html : String) (h : fetch u = .ok html true) :
    scrape_public_step fetch parse now acc u
      = ({ acc.1 with
            dfIndexed := set_public (set_scraped acc.1.dfIndexed u) u true
            dfScrapedNew := acc.1.dfScrapedNew ++ [parse_row parse html u now] },
          acc.2) := by
  unfold scrape_public_step
  rw [h]

/-- Evaluation of one public-scrape step on a paywalled page. -/
theorem scrape_public_step_ok_false (fetch : String → FetchResult)
    (parse : String → String → List (String × String)) (now : Int)
    (acc : MgrState × List String) (u html : String) (h : fetch u = .ok html false) :
    scrape_public_step fetch parse now acc u
      = ({ acc.1 with dfIndexed := set_public acc.1.dfIndexed u false }, acc.2) := by
  unfold scrape_public_step
  rw [h]

/-- One public-scrape step keeps the URL index. -/
theorem scrape_public_step_urls (fetch : String → FetchResult)
    (parse : String → String → List (String × String)) (now : Int)
    (acc : MgrState × List String) (u : String) :
    tableUrls (scrape_public_step fetch parse now acc u).1.dfIndexed
      = tableUrls acc.1.dfIndexed := by
  cases hfu : fetch u with
  | fetchError =>
    rw [scrape_public_step_fetchError fetch parse now acc u hfu]
    exact tableUrls_set_public _ _ _
  | ok html b =>
    cases b with
    | false =>
      rw [scrape_public_step_ok_false fetch parse now acc u html hfu]
      exact tableUrls_set_public _ _ _
    | true =>
      rw [scrape_public_step_ok_true fetch parse now acc u html hfu]
      show tableUrls (set_public (set_scraped acc.1.dfIndexed u) u true)
        = tableUrls acc.1.dfIndexed
      rw [tableUrls_set_public, tableUrls_set_scraped]

/-- URLs not in the remaining worklist keep both flags across the
public-scrape loop. -/
theorem scrape_public_fold_other (fetch : String → FetchResult)
    (parse : String → String → List (String × String)) (now : Int) (us : List String) :
    ∀ (acc : MgrState × List String) (v : String), v ∉ us →
      public_flag ((us.foldl (scrape_public_step fetch parse now) acc).1.dfIndexed) v
        = public_flag acc.1.dfIndexed v
      ∧ scraped_flag ((us.foldl (scrape_public_step fetch parse now) acc).1.dfIndexed) v
        = scraped_flag acc.1.dfIndexed v := by
  induction us with
  | nil => intro acc v _; exact ⟨rfl, rfl⟩
  | cons u us ih =>
    intro acc v hv
    have hvu : v ≠ u := fun h => hv (h ▸ List.mem_cons_self u us)
    have hvs : v ∉ us := fun h => hv (List.mem_cons_of_mem _ h)
    rw [List.foldl_cons]
    obtain ⟨ih1, ih2⟩ := ih (scrape_public_step fetch parse now acc u) v hvs
    rw [ih1, ih2]
    cases hfu : fetch u with
    | fetchError =>
      rw [scrape_public_step_fetchError fetch parse now acc u hfu]
      exact ⟨public_flag_set_public_other _ _ _ _ hvu, scraped_flag_set_public _ _ _ _⟩
    | ok html b =>
      cases b with
      | false =>
        rw [scrape_public_step_ok_false fetch parse now acc u html hfu]
        exact ⟨public_flag_set_public_other _ _ _ _ hvu, scraped_flag_set_public _ _ _ _⟩
      | true =>
        rw [scrape_public_step_ok_true fetch parse now acc u html hfu]
        constructor
        · show public_flag (set_public (set_scraped acc.1.dfIndexed u) u true) v
            = public_flag acc.1.dfIndexed v
          rw [public_flag_set_public_other _ _ _ _ hvu, public_flag_set_scraped]
        · show scraped_flag (set_public (set_scraped acc.1.dfIndexed u) u true) v
            = scraped_flag acc.1.dfIndexed v
          rw [scraped_flag_set_public, scraped_flag_set_scraped_other _ _ _ hvu]

/-- Every URL of the worklist has its accessibility recorded (non-null
`Public`) after the public-scrape loop. -/
theorem scrape_public_fold_processed (fetch : String → FetchResult)
    (parse : String → String → List (String × String)) (now : Int) (us : List String) :
    ∀ (acc : MgrState × List String) (v : String), us.Nodup → v ∈ us →
      v ∈ tableUrls acc.1.dfIndexed →
      is_null_public (public_flag
        ((us.foldl (scrape_public_step fetch parse now) acc).1.dfIndexed) v) = false := by
  induction us with
  | nil => intro _ _ _ hv _; cases hv
  | cons u us ih =>
    intro acc v hnd hv hvt
    rw [List.foldl_cons]
    rcases List.mem_cons.1 hv with rfl | hv'
    · have hnot : v ∉ us := (List.nodup_cons.1 hnd).1
      rw [(scrape_public_fold_other fetch parse now us
        (scrape_public_step fetch parse now acc v) v hnot).1]
      cases hfu : fetch v with
      | fetchError =>
        rw [scrape_public_step_fetchError fetch parse now acc v hfu]
        show is_null_public (public_flag (set_public acc.1.dfIndexed v false) v) = false
        rw [public_flag_set_public_self _ _ _ hvt]
        rfl
      | ok html b =>
        cases b with
        | false =>
          rw [scrape_public_step_ok_false fetch parse now acc v html hfu]
          show is_null_public (public_flag (set_public acc.1.dfIndexed v false) v) = false
          rw [public_flag_set_public_self _ _ _ hvt]
          rfl
        | true =>
          rw [scrape_public_step_ok_true fetch parse now acc v html hfu]
          show is_null_public
            (public_flag (set_public (set_scraped acc.1.dfIndexed v) v true) v) = false
          have hvt2 : v ∈ tableUrls (set_scraped acc.1.dfIndexed v) := by
            rw [tableUrls_set_scraped]
            exact hvt
          rw [public_flag_set_public_self _ _ _ hvt2]
          rfl
    · refine ih (scrape_public_step fetch parse now acc u) v (List.nodup_cons.1 hnd).2 hv' ?_
      rw [scrape_public_step_urls]
      exact hvt

/-- Warnings are never dropped by the public-scrape loop. -/
theorem scrape_public_fold_warn_mono (fetch : String → FetchResult)
    (parse : String → String → List (String × String)) (now : Int) (us : List String) :
    ∀ (acc : MgrState × List String) (w : String), w ∈ acc.2 →
      w ∈ (us.foldl (scrape_public_step fetch parse now) acc).2 := by
  induction us with
  | nil => intro acc w h; exact h
  | cons u us ih =>
    intro acc w h
    rw [List.foldl_cons]
    apply ih
    cases hfu : fetch u with
    | fetchError =>
      rw [scrape_public_step_fetchError fetch parse now acc u hfu]
      exact List.mem_append_left _ h
    | ok html b =>
      cases b with
      | false =>
        rw [scrape_public_step_ok_false fetch parse now acc u html hfu]
        exact h
      | true =>
        rw [scrape_public_step_ok_true fetch parse now acc u html hfu]
        exact h

/-- A worklist URL whose fetch fails puts its warning in the loop's log. -/
theorem scrape_public_fold_warn (fetch : String → FetchResult)
    (parse : String → String → List (String × String)) (now : Int) (us : List String) :
    ∀ (acc : MgrState × List String) (u0 : String), u0 ∈ us → fetch u0 = .fetchError →
      s!"Error scraping {u0}." ∈ (us.foldl (scrape_public_step fetch parse now) acc).2 := by
  induction us with
  | nil => intro _ _ h _; cases h
  | cons u us ih =>
    intro acc u0 h0 hf
    rw [List.foldl_cons]
    rcases List.mem_cons.1 h0 with rfl | h0'
    · apply scrape_public_fold_warn_mono
      rw [scrape_public_step_fetchError fetch parse now acc u0 hf]
      exact List.mem_append_right _ (List.mem_singleton.2 rfl)
    · exact ih _ u0 h0' hf

/-- Every row the public-scrape loop adds to the pending buffer carries a
worklist URL. -/
theorem scrape_public_fold_buffer (fetch : String → FetchResult)
    (parse : String → String → List (String × String)) (now : Int) (us : List String) :
    ∀ (acc : MgrState × List String) (row : ScrapedRow),
      row ∈ (us.foldl (scrape_public_step fetch parse now) acc).1.dfScrapedNew →
      row ∈ acc.1.dfScrapedNew ∨ row.url ∈ us := by
  induction us with
  | nil => intro acc row h; exact Or.inl h
  | cons u us ih =>
    intro acc row h
    rw [List.foldl_cons] at h
    rcases ih _ row h with hin | hus
    · cases hfu : fetch u with
      | fetchError =>
        rw [scrape_public_step_fetchError fetch parse now acc u hfu] at hin
        exact Or.inl hin
      | ok html b =>
        cases b with
        | false =>
          rw [scrape_public_step_ok_false fetch parse now acc u html hfu] at hin
          exact Or.inl hin
        | true =>
          rw [scrape_public_step_ok_true fetch parse now acc u html hfu] at hin
          have hin' : row ∈ acc.1.dfScrapedNew ++ [parse_row parse html u now] := hin
          rcases List.mem_append.1 hin' with h1 | h2
          · exact Or.inl h1
          · right
            rw [List.mem_singleton.1 h2]
            exact List.mem_cons_self _ _
    · exact Or.inr (List.mem_cons_of_mem _ hus)

/-- The failing URL's accessibility is recorded as not public, its
`Scraped` cell is untouched, and no buffer row is created for it. -/
theorem scrape_public_fold_fail (fetch : String → FetchResult)
    (parse : String → String → List (String × String)) (now : Int) (us : List String) :
    ∀ (acc : MgrState × List String) (u0 : String), us.Nodup → u0 ∈ us →
      fetch u0 = .fetchError → u0 ∈ tableUrls acc.1.dfIndexed →
      public_flag ((us.foldl (scrape_public_step fetch parse now) acc).1.dfIndexed) u0
        = .pbool false
      ∧ scraped_flag ((us.foldl (scrape_public_step fetch parse now) acc).1.dfIndexed) u0
        = scraped_flag acc.1.dfIndexed u0
      ∧ ∀ row ∈ (us.foldl (scrape_public_step fetch parse now) acc).1.dfScrapedNew,
          row.url = u0 → row ∈ acc.1.dfScrapedNew := by
  induction us with
  | nil => intro _ _ _ h0 _ _; cases h0
  | cons u us ih =>
    intro acc u0 hnd h0 hf hmem
    rw [List.foldl_cons]
    rcases List.mem_cons.1 h0 with rfl | h0'
    · have hnot : u0 ∉ us := (List.nodup_cons.1 hnd).1
      obtain ⟨hp, hs⟩ := scrape_public_fold_other fetch parse now us
        (scrape_public_step fetch parse now acc u0) u0 hnot
      refine ⟨?_, ?_, ?_⟩
      · rw [hp, scrape_public_step_fetchError fetch parse now acc u0 hf]
        show public_flag (set_public acc.1.dfIndexed u0 false) u0 = .pbool false
        exact public_flag_set_public_self _ _ _ hmem
      · rw [hs, scrape_public_step_fetchError fetch parse now acc u0 hf]
        show scraped_flag (set_public acc.1.dfIndexed u0 false) u0
          = scraped_flag acc.1.dfIndexed u0
        exact scraped_flag_set_public _ _ _ _
      · intro row hrow hurl
        rw [scrape_public_step_fetchError fetch parse now acc u0 hf] at hrow
        rcases scrape_public_fold_buffer fetch parse now us _ row hrow with hin | hus
        · exact hin
        · exact absurd (hurl ▸ hus) hnot
    · have hnd' := (List.nodup_cons.1 hnd).2
      have hmem' : u0 ∈ tableUrls (scrape_public_step fetch parse now acc u).1.dfIndexed := by
        rw [scrape_public_step_urls]
        exact hmem
      obtain ⟨hp, hs, hb⟩ := ih (scrape_public_step fetch parse now acc u) u0 hnd' h0' hf hmem'
      have hvu : u0 ≠ u := fun h => (List.nodup_cons.1 hnd).1 (h ▸ h0')
      refine ⟨hp, ?_, ?_⟩
      · rw [hs]
        cases hfu : fetch u with
        | fetchError =>
          rw [scrape_public_step_fetchError fetch parse now acc u hfu]
          show scraped_flag (set_public acc.1.dfIndexed u false) u0
            = scraped_flag acc.1.dfIndexed u0
          exact scraped_flag_set_public _ _ _ _
        | ok html b =>
          cases b with
          | false =>
            rw [scrape_public_step_ok_false fetch parse now acc u html hfu]
            show scraped_flag (set_public acc.1.dfIndexed u false) u0
              = scraped_flag acc.1.dfIndexed u0
            exact scraped_flag_set_public _ _ _ _
          | true =>
            rw [scrape_public_step_ok_true fetch parse now acc u html hfu]
            show scraped_flag (set_public (set_scraped acc.1.dfIndexed u) u true) u0
              = scraped_flag acc.1.dfIndexed u0
            rw [scraped_flag_set_public, scraped_flag_set_scraped_other _ _ _ hvu]
      · intro row hrow hurl
        have hrow' := hb row hrow hurl
        cases hfu : fetch u with
        | fetchError =>
          rw [scrape_public_step_fetchError fetch parse now acc u hfu] at hrow'
          exact hrow'
        | ok html b =>
          cases b with
          | false =>
            rw [scrape_public_step_ok_false fetch parse now acc u html hfu] at hrow'
            exact hrow'
          | true =>
            rw [scrape_public_step_ok_true fetch parse now acc u html hfu] at hrow'
            have hrow2 : row ∈ acc.1.dfScrapedNew ++ [parse_row parse html u now] := hrow'
            rcases List.mem_append.1 hrow2 with h1 | h2
            · exact h1
            · have h3 : row.url = u := by
                rw [List.mem_singleton.1 h2]
                rfl
              exact absurd (hurl.symm.trans h3) hvu

/-- C6: during a public scrape pass, the per-article failure path of the
adapter's fetch+classify (the `AttributeError` handler returning
`(None, False)`) does not abort the batch — every candidate URL still has
its accessibility recorded by the same invocation; the failing article is
recorded as not public with its `Scraped` state untouched and no Scraped
row created; and a warning naming the URL is emitted. -/
theorem c6_parse_failure_not_fatal (nid : String) (fetch : String → FetchResult)
    (parse : String → String → List (String × String)) (now : Int) (s : MgrState)
    (url0 : String) (hnd : (tableUrls s.dfIndexed).Nodup)
    (hmem : url0 ∈ (to_scrape_public nid s.dfIndexed).map (·.url))
    (hfail : fetch url0 = .fetchError) :
    (s!"Error scraping {url0}." ∈ (scrape_public_articles nid fetch parse now s).2)
    ∧ (∀ u ∈ (to_scrape_public nid s.dfIndexed).map (·.url),
        is_null_public (public_flag
          (scrape_public_articles nid fetch parse now s).1.dfIndexed u) = false)
    ∧ public_flag (scrape_public_articles nid fetch parse now s).1.dfIndexed url0
        = .pbool false
    ∧ scraped_flag (scrape_public_articles nid fetch parse now s).1.dfIndexed url0
        = scraped_flag s.dfIndexed url0
    ∧ (∀ row ∈ (scrape_public_articles nid fetch parse now s).1.dfScrapedNew,
        row.url = url0 → row ∈ s.dfScrapedNew) := by
  have hie : (to_scrape_public nid s.dfIndexed).isEmpty = false := by
    cases hd : to_scrape_public nid s.dfIndexed with
    | nil =>
      rw [hd] at hmem
      cases hmem
    | cons a l => rfl
  have hrun : scrape_public_articles nid fetch parse now s
      = ((to_scrape_public nid s.dfIndexed).map (·.url)).foldl
          (scrape_public_step fetch parse now) (s, []) := by
    simp [scrape_public_articles, hie]
  have husnd : (((to_scrape_public nid s.dfIndexed)).map (·.url)).Nodup :=
    hnd.sublist ((List.filter_sublist _).map _)
  have hmemt : ∀ u ∈ (to_scrape_public nid s.dfIndexed).map (·.url),
      u ∈ tableUrls s.dfIndexed := by
    intro u hu
    obtain ⟨r, hr, hru⟩ := List.mem_map.1 hu
    exact hru ▸ List.mem_map_of_mem _ (List.mem_filter.1 hr).1
  obtain ⟨hp0, hs0, hb0⟩ := scrape_public_fold_fail fetch parse now
    ((to_scrape_public nid s.dfIndexed).map (·.url)) (s, []) url0 husnd hmem hfail
    (hmemt url0 hmem)
  refine ⟨?_, ?_, ?_, ?_, ?_⟩
  · rw [hrun]
    exact scrape_public_fold_warn fetch parse now _ (s, []) url0 hmem hfail
  · intro u hu
    rw [hrun]
    exact scrape_public_fold_processed fetch parse now _ (s, []) u husnd hu (hmemt u hu)
  · rw [hrun]
    exact hp0
  · rw [hrun]
    exact hs0
  · intro row hrow
    rw [hrun] at hrow
    exact hb0 row hrow

/-- C6, witness: publisher `"x"` with candidates `"a"` (fetch fails) and
`"b"` (public), starting from empty buffers. -/
theorem c6_parse_failure_witness :
    ("Error scraping a." ∈ (scrape_public_articles "x" c6_fetch (fun _ _ => []) 0 c6_state).2)
    ∧ public_flag (scrape_public_articles "x" c6_fetch (fun _ _ => []) 0 c6_state).1.dfIndexed
        "a" = .pbool false
    ∧ scraped_flag (scrape_public_articles "x" c6_fetch (fun _ _ => []) 0 c6_state).1.dfIndexed
        "a" = scraped_flag c6_state.dfIndexed "a" :=
  have h := c6_parse_failure_not_fatal "x" c6_fetch (fun _ _ => []) 0 c6_state "a"
    (by decide) (by decide) (by decide)
  ⟨h.1, h.2.2.1, h.2.2.2.1⟩

end NewspaperScraper
